import Mathlib

/-!
Verification of the Neo4j_pyQt graph client.

We shallowly embed the pure logic of `neo_4j_client.py` / `main.py`:
Python dicts over string keys and values become association lists
(`PropMap`) with Python's insert-or-update assignment (`dictSet`),
Python's `x or default` idiom on strings/`None` becomes `pyOr`, and the
record-building loops of `get_graph`, `add_node`, `add_relationship`,
`Worker.run` and `MainWindow._apply_graph_to_view` become Lean functions
over explicit input lists.
-/

namespace NeoPyQt

/-- A Python `dict` with string keys and string values, as an association
list in insertion order.  All dicts built by the program have distinct
keys; lookup is first-match, matching `dict.get`. -/
abbrev PropMap := List (String × String)

/-- Python dict assignment `m[k] = v`: update the value in place if the
key is present, otherwise append the pair at the end. -/
def dictSet (m : PropMap) (k v : String) : PropMap :=
  match m with
  | [] => [(k, v)]
  | (k', v') :: rest => if k' = k then (k, v) :: rest else (k', v') :: dictSet rest k v

/-- Python's `x or default` on an optional string: `None` and the empty
string (both falsy) give the default, any non-empty string gives itself. -/
def pyOr (o : Option String) (d : String) : String :=
  match o with
  | none => d
  | some s => if s = "" then d else s

/-- Python's `properties or {}` on an optional dict: `None` (and the
falsy empty dict) become the empty dict. -/
def pyDictOr (o : Option PropMap) : PropMap := o.getD []

theorem dictSet_lookup (m : PropMap) (k v k' : String) :
    (dictSet m k v).lookup k' = if k' = k then some v else m.lookup k' := by
  induction m with
  | nil =>
    by_cases h : k' = k <;> simp [dictSet, List.lookup, beq_eq_decide, h]
  | cons hd tl ih =>
    obtain ⟨k₁, v₁⟩ := hd
    by_cases h1 : k₁ = k
    · subst h1
      by_cases h2 : k' = k₁ <;> simp [dictSet, List.lookup, beq_eq_decide, h2]
    · by_cases h2 : k' = k₁
      · subst h2
        simp [dictSet, h1, List.lookup, beq_eq_decide, Ne.symm h1]
      · simp [dictSet, h1, List.lookup, beq_eq_decide, h2, ih]

/-! ## `Neo4jClient.get_graph` (neo_4j_client.py lines 18-53)

The store hands back raw node records (internal integer id, structural
labels, property map) and raw relationship records (internal id, type,
property map, plus the two raw endpoint nodes).  `get_graph` normalizes
them into `GraphNode` / `GraphEdge` dictionaries. -/

/-- A raw node as returned by the store: internal handle `n.id`,
structural labels `n.labels`, property map `n.items()`. -/
structure RawNode where
  nid : Nat
  labels : List String
  props : PropMap
  deriving Repr, DecidableEq

/-- A raw relationship record `(r, a, b)` as returned by
`MATCH (a)-[r]->(b) RETURN r, a, b`. -/
structure RawRel where
  rid : Nat
  rtype : String
  rprops : PropMap
  a : RawNode
  b : RawNode
  deriving Repr, DecidableEq

/-- A normalized node dictionary `{"id", "label", "properties"}`. -/
structure GraphNode where
  id : String
  label : String
  properties : PropMap
  deriving Repr, DecidableEq

/-- A normalized edge dictionary
`{"id", "from", "to", "type", "properties", "direction"}`. -/
structure GraphEdge where
  id : String
  fromId : String
  toId : String
  type : String
  properties : PropMap
  direction : String
  deriving Repr, DecidableEq

/-- The node-normalization step of `get_graph`:
`node_uuid = props.get("uuid") or str(n.id)`;
`label = labels[0] if labels else props.get("label") or node_uuid`. -/
def mkGraphNode (n : RawNode) : GraphNode :=
  let node_uuid := pyOr (n.props.lookup "uuid") (toString n.nid)
  let label :=
    match n.labels with
    | l :: _ => l
    | [] => pyOr (n.props.lookup "label") node_uuid
  { id := node_uuid, label := label, properties := n.props }

/-- The relationship-normalization step of `get_graph`: uuid-or-handle
for the edge id and both endpoint ids; `direction` is the literal
`"->"`. -/
def mkGraphEdge (rec : RawRel) : GraphEdge :=
  let rel_uuid := pyOr (rec.rprops.lookup "uuid") (toString rec.rid)
  let from_uuid := pyOr (rec.a.props.lookup "uuid") (toString rec.a.nid)
  let to_uuid := pyOr (rec.b.props.lookup "uuid") (toString rec.b.nid)
  { id := rel_uuid, fromId := from_uuid, toId := to_uuid,
    type := rec.rtype, properties := rec.rprops, direction := "->" }

/-- `Neo4jClient.get_graph`, as a function of the raw records the two
queries return. -/
def get_graph (rawNodes : List RawNode) (rawRels : List RawRel) :
    List GraphNode × List GraphEdge :=
  (rawNodes.map mkGraphNode, rawRels.map mkGraphEdge)

/-! ## Sanitization and the create operations
(neo_4j_client.py lines 55-81) -/

/-- The character set the sanitizer keeps: `ch.isalnum() or ch == "_"`.
Python's `str.isalnum` is Unicode-aware; we model the alphanumeric test
with `Char.isAlphanum`. -/
def isSafeChar (c : Char) : Bool := c.isAlphanum || c = '_'

/-- `"".join(ch for ch in s if ch.isalnum() or ch == "_")`. -/
def sanitize (s : String) : String := String.mk (s.data.filter isSafeChar)

/-- `safe_label = "".join(ch for ch in (label or "Node") if ...) or "Node"`
from `add_node`. -/
def safe_label (label : Option String) : String :=
  let f := sanitize (pyOr label "Node")
  if f = "" then "Node" else f

/-- `safe_type = "".join(ch for ch in (r_type or "REL") if ...) or "REL"`
from `add_relationship`. -/
def safe_type (r_type : Option String) : String :=
  let f := sanitize (pyOr r_type "REL")
  if f = "" then "REL" else f

/-- The `CREATE (n:{safe_label}) SET n += $props` statement issued by
`add_node`: the templated label and the parameter map. -/
structure NodeCreate where
  label : String
  props : PropMap
  deriving Repr, DecidableEq

/-- The `MATCH (a {uuid:$from_uuid}), (b {uuid:$to_uuid})
CREATE (a)-[r:{safe_type}]->(b) SET r += $props` statement issued by
`add_relationship`. -/
structure RelCreate where
  fromId : String
  toId : String
  relType : String
  props : PropMap
  deriving Repr, DecidableEq

/-- `Neo4jClient.add_node`, as the create statement it issues.  The
fresh UUID `uuid.uuid4()` is passed in as `node_uuid`. -/
def add_node (label : Option String) (properties : Option PropMap)
    (node_uuid : String) : NodeCreate :=
  let props := dictSet (pyDictOr properties) "uuid" node_uuid
  { label := safe_label label, props := props }

/-- `Neo4jClient.add_relationship`, as the create statement it issues:
builds the parameter map, sanitizes the type, and swaps the endpoints
when `direction == "<-"`. -/
def add_relationship (from_uuid to_uuid : String) (r_type : Option String)
    (direction : String) (properties : Option PropMap)
    (rel_uuid : String) : RelCreate :=
  let props := dictSet (pyDictOr properties) "uuid" rel_uuid
  let st := safe_type r_type
  let (f, t) :=
    if direction = "<-" then (to_uuid, from_uuid) else (from_uuid, to_uuid)
  { fromId := f, toId := t, relType := st, props := props }

/-! ## The update operations against a modelled store
(neo_4j_client.py lines 83-93)

`update_node_properties` runs `MATCH (n) WHERE n.uuid=$nid SET n += $props`
and `update_relationship_properties` runs
`MATCH ()-[r]->() WHERE r.uuid=$rid SET r += $props`.  The store itself
is not part of the repository; we model its state as the lists of node
and relationship property maps and give the documented semantics of the
two Cypher operators the queries use: `WHERE x.uuid=$id` matches exactly
the entities whose `uuid` property equals the parameter (entities
without the property compare as null and never match), and `SET x += m`
merges `m` onto the entity's existing properties key by key. -/

/-- Modelled from the spec: the graph store's state, reduced to what the
two update queries can observe and change — the property map of every
node and of every relationship. -/
structure Store where
  nodes : List PropMap
  rels : List PropMap
  deriving Repr, DecidableEq

/-- Modelled from the spec: Cypher `SET x += $props` — "merge (not
replace) the given properties onto the existing entity": each given
key/value pair is written onto the existing map, other keys are kept. -/
def cypherMerge (existing given : PropMap) : PropMap :=
  given.foldl (fun acc kv => dictSet acc kv.1 kv.2) existing

/-- `Neo4jClient.update_node_properties`: merge `props` onto every node
whose `uuid` property equals `nid` (the query's `MATCH (n) WHERE
n.uuid=$nid SET n += $props`); the function inspects no result and
returns nothing. -/
def update_node_properties (st : Store) (nid : String) (props : PropMap) :
    Store :=
  { st with
    nodes := st.nodes.map fun n =>
      if n.lookup "uuid" = some nid then cypherMerge n props else n }

/-- `Neo4jClient.update_relationship_properties`: the same merge on the
relationships (`MATCH ()-[r]->() WHERE r.uuid=$rid SET r += $props`). -/
def update_relationship_properties (st : Store) (rid : String)
    (props : PropMap) : Store :=
  { st with
    rels := st.rels.map fun r =>
      if r.lookup "uuid" = some rid then cypherMerge r props else r }

/-! ## Filtering and the view builder
(main.py, `MainWindow._apply_graph_to_view`, lines 660-687) -/

/-- The client-side filter step: when a type is selected
(`selected_type and selected_type != "Все"`), keep the nodes whose
`тип` property equals it and the edges whose both endpoint ids are
among the kept nodes' ids. -/
def filterGraph (nodes : List GraphNode) (rels : List GraphEdge)
    (selected_type : String) : List GraphNode × List GraphEdge :=
  if selected_type ≠ "" ∧ selected_type ≠ "Все" then
    let nodes' := nodes.filter fun n =>
      n.properties.lookup "тип" == some selected_type
    let node_ids := nodes'.map GraphNode.id
    let rels' := rels.filter fun r =>
      node_ids.contains r.fromId && node_ids.contains r.toId
    (nodes', rels')
  else
    (nodes, rels)

/-- Python `str` of a string-valued dict, used for tooltips:
`str({'k': 'v'})` is `"{'k': 'v'}"`. -/
def pyDictStr (m : PropMap) : String :=
  "\x7b" ++ String.intercalate ", "
    (m.map fun kv => "'" ++ kv.1 ++ "': '" ++ kv.2 ++ "'") ++ "\x7d"

/-- A visual edge as registered with `net.add_edge`. -/
structure VisEdge where
  fromId : String
  toId : String
  label : String
  title : String
  arrows : String
  id : String
  deriving Repr, DecidableEq

/-- The arrow style chosen for a single edge record:
`"to" if r.get("direction", "->") == "->" else "from" if
r.get("direction") == "<-" else "to,from"` (the edges built by
`get_graph` always carry a `direction` key). -/
def arrowsFor (direction : String) : String :=
  if direction = "->" then "to"
  else if direction = "<-" then "from"
  else "to,from"

/-- The edge loop of `_apply_graph_to_view`: one visual edge per edge
record, labeled by its type, tooltip from its property map, arrow style
from its direction, and carrying the edge id for click resolution. -/
def buildVisEdges (rels : List GraphEdge) : List VisEdge :=
  rels.map fun r =>
    { fromId := r.fromId, toId := r.toId, label := r.type,
      title := pyDictStr r.properties, arrows := arrowsFor r.direction,
      id := r.id }

/-! ## `Worker.run` (main.py lines 96-113)

The wrapped call either returns a value or raises an exception; we model
it as an `Except`.  `run` emits signals in order: the `result` signal on
return, the `error` signal on exception, and `finished` in the `finally`
block in both cases. -/

/-- One signal emission of a `Worker`, with its payload: `result` and
`error` carry `{'task': name, ...}` dicts. -/
inductive WorkerSignal (E A : Type) where
  | result (task : Option String) (value : A)
  | error (task : Option String) (exc : E)
  | finished
  deriving Repr, DecidableEq

/-- `Worker.run`: the exact sequence of signals one execution emits for
a wrapped call with the given outcome. -/
def workerRun {E A : Type} (task_name : Option String)
    (fn : Except E A) : List (WorkerSignal E A) :=
  match fn with
  | .ok v => [.result task_name v, .finished]
  | .error e => [.error task_name e, .finished]

/-- Recognizes the `result` signal. -/
def WorkerSignal.isResult {E A : Type} : WorkerSignal E A → Bool
  | .result _ _ => true
  | _ => false

/-- Recognizes the `error` signal. -/
def WorkerSignal.isError {E A : Type} : WorkerSignal E A → Bool
  | .error _ _ => true
  | _ => false

/-- Recognizes the `finished` signal. -/
def WorkerSignal.isFinished {E A : Type} : WorkerSignal E A → Bool
  | .finished => true
  | _ => false

/-! ## Dict aliasing in `add_node` / `add_relationship`

`props = dict(properties or {})` allocates a fresh dict copying the
caller's, and `props["uuid"] = ...` mutates only that fresh dict.  To
state this we model Python's dict references explicitly: a heap of
dicts indexed by allocation order. -/

/-- A heap of Python dicts; a reference is an index into the list. -/
abbrev DictHeap := List PropMap

/-- Dereference a dict. -/
def heapGet (h : DictHeap) (r : Nat) : PropMap := h.getD r []

/-- Python dict assignment `d[k] = v` through a reference. -/
def heapSetKey (h : DictHeap) (r : Nat) (k v : String) : DictHeap :=
  h.set r (dictSet (heapGet h r) k v)

/-- The property-map handling of `add_node` at the heap level:
`props = dict(properties or {})` (allocate a copy of the caller's dict,
or of the empty dict for `None`), then `props["uuid"] = node_uuid`
(mutate only the copy).  Returns the new heap and the copy's
reference. -/
def add_node_props (h : DictHeap) (properties : Option Nat)
    (node_uuid : String) : DictHeap × Nat :=
  let src := match properties with | none => [] | some r => heapGet h r
  let h1 := h ++ [src]
  let propsRef := h.length
  (heapSetKey h1 propsRef "uuid" node_uuid, propsRef)

/-- The identical property-map handling of `add_relationship`:
`props = dict(properties or {})`; `props["uuid"] = rel_uuid`. -/
def add_relationship_props (h : DictHeap) (properties : Option Nat)
    (rel_uuid : String) : DictHeap × Nat :=
  let src := match properties with | none => [] | some r => heapGet h r
  let h1 := h ++ [src]
  let propsRef := h.length
  (heapSetKey h1 propsRef "uuid" rel_uuid, propsRef)

theorem heapGet_append_lt (h : DictHeap) (m : PropMap) (r : Nat)
    (hr : r < h.length) : heapGet (h ++ [m]) r = heapGet h r := by
  simp [heapGet, List.getD_eq_getElem?_getD, List.getElem?_append_left hr]

theorem heapGet_append_self (h : DictHeap) (m : PropMap) :
    heapGet (h ++ [m]) h.length = m := by
  simp [heapGet, List.getD_eq_getElem?_getD, List.getElem?_concat_length]

theorem heapGet_setKey_ne (h : DictHeap) (r r' : Nat) (k v : String)
    (hne : r ≠ r') : heapGet (heapSetKey h r k v) r' = heapGet h r' := by
  simp [heapGet, heapSetKey, List.getD_eq_getElem?_getD,
    List.getElem?_set_ne hne]

theorem heapGet_setKey_self (h : DictHeap) (r : Nat) (k v : String)
    (hr : r < h.length) :
    heapGet (heapSetKey h r k v) r = dictSet (heapGet h r) k v := by
  simp [heapGet, heapSetKey, List.getD_eq_getElem?_getD,
    List.getElem?_set_self hr]

/-! ## Helper lemmas about merge and lookup -/

theorem lookup_eq_none_of_not_mem_keys (l : PropMap) (k : String)
    (h : k ∉ l.map Prod.fst) : l.lookup k = none := by
  induction l with
  | nil => rfl
  | cons hd tl ih =>
    simp only [List.map_cons, List.mem_cons] at h
    push_neg at h
    simp [List.lookup, beq_eq_decide, h.1, ih h.2]

theorem cypherMerge_cons (m tl : PropMap) (k v : String) :
    cypherMerge m ((k, v) :: tl) = cypherMerge (dictSet m k v) tl := rfl

theorem lookup_cons_eqn (tl : PropMap) (k k₁ v₁ : String) :
    ((k₁, v₁) :: tl).lookup k = if k = k₁ then some v₁ else tl.lookup k := by
  by_cases hk : k = k₁ <;> simp [List.lookup, beq_eq_decide, hk]

theorem cypherMerge_lookup_notGiven (m given : PropMap) (k : String)
    (h : given.lookup k = none) :
    (cypherMerge m given).lookup k = m.lookup k := by
  induction given generalizing m with
  | nil => rfl
  | cons hd tl ih =>
    obtain ⟨k₁, v₁⟩ := hd
    by_cases hk : k = k₁
    · subst hk
      simp [List.lookup, beq_eq_decide] at h
    · rw [lookup_cons_eqn, if_neg hk] at h
      rw [cypherMerge_cons, ih _ h, dictSet_lookup, if_neg hk]

theorem cypherMerge_lookup_given (m given : PropMap) (k v : String)
    (hnd : (given.map Prod.fst).Nodup) (h : given.lookup k = some v) :
    (cypherMerge m given).lookup k = some v := by
  induction given generalizing m with
  | nil => cases h
  | cons hd tl ih =>
    obtain ⟨k₁, v₁⟩ := hd
    simp only [List.map_cons, List.nodup_cons] at hnd
    by_cases hk : k = k₁
    · subst hk
      rw [lookup_cons_eqn, if_pos rfl, Option.some.injEq] at h
      subst h
      rw [cypherMerge_cons,
        cypherMerge_lookup_notGiven _ _ _
          (lookup_eq_none_of_not_mem_keys _ _ hnd.1),
        dictSet_lookup, if_pos rfl]
    · rw [lookup_cons_eqn, if_neg hk] at h
      rw [cypherMerge_cons]
      exact ih _ hnd.2 h

/-! ## The filter selector's contents
(main.py, `_populate_filters` / `_apply_filters`, lines 631-654)

Both populate the combo box with `["Все"] + sorted(set(types))` where
`types = [rec["t"] for rec in result if rec["t"]]` keeps only truthy
(non-empty) type values. -/

/-- The list of entries offered by the type-filter combo box, as a
function of the raw `тип` values the distinct-types query returns. -/
def populate_filter_types (raw : List String) : List String :=
  "Все" :: ((raw.filter fun t => t ≠ "").dedup.mergeSort fun a b =>
    decide (a ≤ b))

/-- Every selectable type value is either the catch-all `"Все"` or a
non-empty string: the empty string (which `_apply_graph_to_view` would
treat as "no filter") is never offered. -/
theorem populate_filter_types_ne_empty (raw : List String) :
    ∀ t ∈ populate_filter_types raw, t = "Все" ∨ t ≠ "" := by
  intro t ht
  simp only [populate_filter_types, List.mem_cons] at ht
  rcases ht with ht | ht
  · exact Or.inl ht
  · right
    have h1 := (List.mem_mergeSort).mp ht
    have h2 := List.mem_dedup.mp h1
    have h3 := (List.mem_filter.mp h2).2
    simpa using h3

/-! ## Claim theorems -/

/-- C1: `add_relationship(fromId, toId, type, direction, properties)`
swaps the two endpoint ids before issuing the create query exactly when
`direction == "<-"`, so the persisted edge runs from the stated 'to'
node to the stated 'from' node; for every other direction value
(including `"->"` and the bidirectional option) the endpoints are
written in the given order unchanged. -/
theorem add_relationship_direction_swap (f t : String) (ty : Option String)
    (d : String) (p : Option PropMap) (u : String) :
    (d = "<-" →
      (add_relationship f t ty d p u).fromId = t ∧
      (add_relationship f t ty d p u).toId = f) ∧
    (d ≠ "<-" →
      (add_relationship f t ty d p u).fromId = f ∧
      (add_relationship f t ty d p u).toId = t) := by
  constructor
  · intro hd
    simp [add_relationship, hd]
  · intro hd
    simp [add_relationship, hd]

theorem add_relationship_direction_swap_witness :
    ((add_relationship "n1" "n2" (some "KNOWS") "<-" none "u1").fromId = "n2" ∧
      (add_relationship "n1" "n2" (some "KNOWS") "<-" none "u1").toId = "n1") ∧
    ((add_relationship "n1" "n2" (some "KNOWS") "->" none "u1").fromId = "n1" ∧
      (add_relationship "n1" "n2" (some "KNOWS") "->" none "u1").toId = "n2") ∧
    ((add_relationship "n1" "n2" (some "KNOWS") "двунаправленное" none
        "u1").fromId = "n1" ∧
      (add_relationship "n1" "n2" (some "KNOWS") "двунаправленное" none
        "u1").toId = "n2") :=
  ⟨(add_relationship_direction_swap "n1" "n2" (some "KNOWS") "<-" none
      "u1").1 rfl,
   (add_relationship_direction_swap "n1" "n2" (some "KNOWS") "->" none
      "u1").2 (by decide),
   (add_relationship_direction_swap "n1" "n2" (some "KNOWS")
      "двунаправленное" none "u1").2 (by decide)⟩

theorem sanitize_chars (s : String) (c : Char) (hc : c ∈ (sanitize s).data) :
    c.isAlphanum ∨ c = '_' := by
  simp only [sanitize, List.mem_filter, isSafeChar] at hc
  have := hc.2
  simp only [Bool.or_eq_true, decide_eq_true_eq] at this
  exact this

theorem sanitize_or_default_spec (s d : String) (hd : d ≠ "")
    (hdc : ∀ c ∈ d.data, c.isAlphanum ∨ c = '_') :
    (if sanitize s = "" then d else sanitize s) ≠ "" ∧
    ∀ c ∈ (if sanitize s = "" then d else sanitize s).data,
      c.isAlphanum ∨ c = '_' := by
  by_cases h : sanitize s = ""
  · rw [if_pos h]
    exact ⟨hd, hdc⟩
  · rw [if_neg h]
    exact ⟨h, fun c hc => sanitize_chars s c hc⟩

/-- C6: for every input (including `None` and the empty string), the
label templated into `add_node`'s create query and the type templated
into `add_relationship`'s create query consist only of alphanumeric and
underscore characters and are never empty: when stripping leaves
nothing, the generic default (`"Node"` / `"REL"`) is substituted. -/
theorem sanitize_label_type_safe (label r_type : Option String) :
    (safe_label label ≠ "" ∧
      ∀ c ∈ (safe_label label).data, c.isAlphanum ∨ c = '_') ∧
    (safe_type r_type ≠ "" ∧
      ∀ c ∈ (safe_type r_type).data, c.isAlphanum ∨ c = '_') := by
  constructor
  · simpa [safe_label] using
      sanitize_or_default_spec (pyOr label "Node") "Node" (by decide)
        (by decide)
  · simpa [safe_type] using
      sanitize_or_default_spec (pyOr r_type "REL") "REL" (by decide)
        (by decide)

theorem sanitize_label_type_safe_witness :
    (safe_label (some "My Label!") ≠ "" ∧
      ('M'.isAlphanum ∨ 'M' = '_')) ∧
    (safe_type none ≠ "" ∧ ('R'.isAlphanum ∨ 'R' = '_')) :=
  ⟨⟨(sanitize_label_type_safe (some "My Label!") none).1.1,
    (sanitize_label_type_safe (some "My Label!") none).1.2 'M' (by decide)⟩,
   ⟨(sanitize_label_type_safe (some "My Label!") none).2.1,
    (sanitize_label_type_safe (some "My Label!") none).2.2 'R' (by decide)⟩⟩

/-- C7: the arrow style of each visual edge registered by
`_apply_graph_to_view` is determined solely by the edge's `direction`
field: `"->"` yields an arrow at the target end only (`"to"`), `"<-"`
yields an arrow at the source end only (`"from"`), and any other value
yields arrows at both ends (`"to,from"`). -/
theorem edge_arrow_style (r : GraphEdge) (rels : List GraphEdge)
    (h : r ∈ rels) :
    ∃ e ∈ buildVisEdges rels,
      e.id = r.id ∧ e.fromId = r.fromId ∧ e.toId = r.toId ∧
      e.label = r.type ∧
      (r.direction = "->" → e.arrows = "to") ∧
      (r.direction = "<-" → e.arrows = "from") ∧
      (r.direction ≠ "->" → r.direction ≠ "<-" → e.arrows = "to,from") := by
  refine ⟨_, List.mem_map_of_mem _ h, rfl, rfl, rfl, rfl, ?_, ?_, ?_⟩
  · intro hd
    simp [arrowsFor, hd]
  · intro hd
    simp [arrowsFor, hd]
  · intro h1 h2
    simp [arrowsFor, h1, h2]

theorem edge_arrow_style_witness :
    (∃ e ∈ buildVisEdges [⟨"r1", "a", "b", "T", [], "->"⟩],
      e.arrows = "to") ∧
    (∃ e ∈ buildVisEdges [⟨"r2", "a", "b", "T", [], "<-"⟩],
      e.arrows = "from") ∧
    (∃ e ∈ buildVisEdges [⟨"r3", "a", "b", "T", [], "двунаправленное"⟩],
      e.arrows = "to,from") :=
  ⟨match edge_arrow_style ⟨"r1", "a", "b", "T", [], "->"⟩ _
      (List.mem_singleton.mpr rfl) with
   | ⟨e, he, _, _, _, _, h1, _, _⟩ => ⟨e, he, h1 rfl⟩,
   match edge_arrow_style ⟨"r2", "a", "b", "T", [], "<-"⟩ _
      (List.mem_singleton.mpr rfl) with
   | ⟨e, he, _, _, _, _, _, h2, _⟩ => ⟨e, he, h2 rfl⟩,
   match edge_arrow_style ⟨"r3", "a", "b", "T", [], "двунаправленное"⟩ _
      (List.mem_singleton.mpr rfl) with
   | ⟨e, he, _, _, _, _, _, _, h3⟩ => ⟨e, he, h3 (by decide) (by decide)⟩⟩

/-- C8: every edge record returned by `get_graph` has `direction` equal
to `"->"`, whatever direction was chosen at creation time (the store
holds only a single directed edge and the read query never recovers the
rendering hint), so after a refresh every edge renders with a
target-end arrow only. -/
theorem get_graph_direction_forward (ns : List RawNode) (rs : List RawRel) :
    (∀ e ∈ (get_graph ns rs).2, e.direction = "->") ∧
    (∀ v ∈ buildVisEdges (get_graph ns rs).2, v.arrows = "to") := by
  constructor
  · intro e he
    simp only [get_graph, List.mem_map] at he
    obtain ⟨rec, -, rfl⟩ := he
    rfl
  · intro v hv
    simp only [get_graph, buildVisEdges, List.map_map, List.mem_map] at hv
    obtain ⟨rec, -, rfl⟩ := hv
    rfl

theorem get_graph_direction_forward_witness :
    (mkGraphEdge ⟨1, "KNOWS", [], ⟨2, [], []⟩, ⟨3, [], []⟩⟩).direction
      = "->" ∧
    (buildVisEdges
        [mkGraphEdge ⟨1, "KNOWS", [], ⟨2, [], []⟩, ⟨3, [], []⟩⟩]).all
      (fun v => v.arrows == "to") = true := by
  have h := get_graph_direction_forward []
    [⟨1, "KNOWS", [], ⟨2, [], []⟩, ⟨3, [], []⟩⟩]
  refine ⟨h.1 _ (List.mem_singleton.mpr rfl), ?_⟩
  rw [List.all_eq_true]
  intro v hv
  exact beq_iff_eq.mpr (h.2 v hv)

/-- C2: for every node list, edge list, and selected type value `T`
other than the catch-all `"Все"` entry (the selector never offers the
empty string, which Python treats as falsy and leaves unfiltered), the
filter applied before rendering keeps exactly the nodes whose `тип`
property equals `T`, and exactly the edges whose `from` and `to` ids
both belong to the kept node subset. -/
theorem filter_by_type_exact (nodes : List GraphNode)
    (rels : List GraphEdge) (T : String) (hT : T ≠ "")
    (hAll : T ≠ "Все") :
    (∀ n, n ∈ (filterGraph nodes rels T).1 ↔
      n ∈ nodes ∧ n.properties.lookup "тип" = some T) ∧
    (∀ r, r ∈ (filterGraph nodes rels T).2 ↔
      r ∈ rels ∧
        r.fromId ∈ (filterGraph nodes rels T).1.map GraphNode.id ∧
        r.toId ∈ (filterGraph nodes rels T).1.map GraphNode.id) := by
  have hcond : T ≠ "" ∧ T ≠ "Все" := ⟨hT, hAll⟩
  constructor
  · intro n
    simp only [filterGraph, if_pos hcond]
    simp [List.mem_filter]
  · intro r
    simp only [filterGraph, if_pos hcond]
    simp [List.mem_filter, List.contains]

theorem filter_by_type_exact_witness :
    (⟨"n1", "Person", [("uuid", "n1"), ("тип", "User")]⟩ : GraphNode) ∈
      (filterGraph
        [⟨"n1", "Person", [("uuid", "n1"), ("тип", "User")]⟩,
         ⟨"n2", "Company", [("uuid", "n2"), ("тип", "Company")]⟩]
        [⟨"r1", "n1", "n2", "WORKS_AT", [], "->"⟩] "User").1 ∧
    (⟨"r1", "n1", "n2", "WORKS_AT", [], "->"⟩ : GraphEdge) ∉
      (filterGraph
        [⟨"n1", "Person", [("uuid", "n1"), ("тип", "User")]⟩,
         ⟨"n2", "Company", [("uuid", "n2"), ("тип", "Company")]⟩]
        [⟨"r1", "n1", "n2", "WORKS_AT", [], "->"⟩] "User").2 := by
  have h := filter_by_type_exact
    [⟨"n1", "Person", [("uuid", "n1"), ("тип", "User")]⟩,
     ⟨"n2", "Company", [("uuid", "n2"), ("тип", "Company")]⟩]
    [⟨"r1", "n1", "n2", "WORKS_AT", [], "->"⟩] "User"
    (by decide) (by decide)
  constructor
  · exact (h.1 _).mpr ⟨by decide, by decide⟩
  · intro hmem
    have := ((h.2 _).mp hmem).2.2
    revert this
    decide

/-- C3 as stated is false: `get_graph` computes
`node_uuid = props.get("uuid") or str(n.id)` with Python truthiness, so
a node whose `uuid` property is present but equal to the empty string
gets the stringified internal handle as its `id`, not the present
property value. -/
theorem get_graph_identity_cx :
    ([("uuid", "")] : PropMap).lookup "uuid" = some "" ∧
    (mkGraphNode ⟨7, [], [("uuid", "")]⟩).id = "7" ∧
    ¬(mkGraphNode ⟨7, [], [("uuid", "")]⟩).id = "" := by
  refine ⟨by decide, by decide, by decide⟩

/-- C3 amended: a returned node's `id` is the `uuid` property when that
property is present *and non-empty*, otherwise the stringified internal
handle; its `label` is the first structural tag when tags exist,
otherwise the `label` property when present *and non-empty*, otherwise
the `id`. -/
theorem get_graph_identity_amended (n : RawNode) :
    (∀ v, n.props.lookup "uuid" = some v → v ≠ "" →
      (mkGraphNode n).id = v) ∧
    ((n.props.lookup "uuid" = none ∨ n.props.lookup "uuid" = some "") →
      (mkGraphNode n).id = toString n.nid) ∧
    (∀ l ls, n.labels = l :: ls → (mkGraphNode n).label = l) ∧
    (n.labels = [] → ∀ v, n.props.lookup "label" = some v → v ≠ "" →
      (mkGraphNode n).label = v) ∧
    (n.labels = [] →
      (n.props.lookup "label" = none ∨ n.props.lookup "label" = some "")
      → (mkGraphNode n).label = (mkGraphNode n).id) := by
  refine ⟨?_, ?_, ?_, ?_, ?_⟩
  · intro v hv hne
    simp [mkGraphNode, pyOr, hv, hne]
  · intro hv
    rcases hv with hv | hv <;> simp [mkGraphNode, pyOr, hv]
  · intro l ls hl
    simp [mkGraphNode, hl]
  · intro hl v hv hne
    simp [mkGraphNode, hl, pyOr, hv, hne]
  · intro hl hv
    rcases hv with hv | hv <;> simp [mkGraphNode, hl, pyOr, hv]

theorem get_graph_identity_amended_witness :
    (mkGraphNode ⟨5, [], [("uuid", "abc")]⟩).id = "abc" ∧
    (mkGraphNode ⟨5, [], []⟩).id = "5" ∧
    (mkGraphNode ⟨5, ["Person"], []⟩).label = "Person" ∧
    (mkGraphNode ⟨5, [], [("label", "L")]⟩).label = "L" ∧
    (mkGraphNode ⟨5, [], []⟩).label = (mkGraphNode ⟨5, [], []⟩).id :=
  ⟨(get_graph_identity_amended ⟨5, [], [("uuid", "abc")]⟩).1 "abc"
      (by decide) (by decide),
   (get_graph_identity_amended ⟨5, [], []⟩).2.1 (Or.inl (by decide)),
   (get_graph_identity_amended ⟨5, ["Person"], []⟩).2.2.1 "Person" []
      rfl,
   (get_graph_identity_amended ⟨5, [], [("label", "L")]⟩).2.2.2.1 rfl
      "L" (by decide) (by decide),
   (get_graph_identity_amended ⟨5, [], []⟩).2.2.2.2 rfl
      (Or.inl (by decide))⟩

/-- C4: updating an existing entity's properties merges the given
key/value pairs onto its existing map rather than replacing it: the
updated entity is present in the updated store, every pre-existing
property not named in the given map is unchanged, and every given key
reads back its given value (Python dicts have distinct keys, hence the
`Nodup` hypothesis on the given map's keys).  Holds for
`update_node_properties` and `update_relationship_properties` alike. -/
theorem update_properties_merge (st : Store) (eid : String)
    (props : PropMap) (hnd : (props.map Prod.fst).Nodup) :
    (∀ m ∈ st.nodes, m.lookup "uuid" = some eid →
      cypherMerge m props ∈ (update_node_properties st eid props).nodes ∧
      (∀ k, props.lookup k = none →
        (cypherMerge m props).lookup k = m.lookup k) ∧
      (∀ k v, props.lookup k = some v →
        (cypherMerge m props).lookup k = some v)) ∧
    (∀ m ∈ st.rels, m.lookup "uuid" = some eid →
      cypherMerge m props ∈
        (update_relationship_properties st eid props).rels ∧
      (∀ k, props.lookup k = none →
        (cypherMerge m props).lookup k = m.lookup k) ∧
      (∀ k v, props.lookup k = some v →
        (cypherMerge m props).lookup k = some v)) := by
  constructor
  · intro m hm hu
    refine ⟨?_, fun k hk => cypherMerge_lookup_notGiven m props k hk,
      fun k v hk => cypherMerge_lookup_given m props k v hnd hk⟩
    simp only [update_node_properties, List.mem_map]
    exact ⟨m, hm, by rw [if_pos hu]⟩
  · intro m hm hu
    refine ⟨?_, fun k hk => cypherMerge_lookup_notGiven m props k hk,
      fun k v hk => cypherMerge_lookup_given m props k v hnd hk⟩
    simp only [update_relationship_properties, List.mem_map]
    exact ⟨m, hm, by rw [if_pos hu]⟩

theorem update_properties_merge_witness :
    ((cypherMerge [("uuid", "e1"), ("name", "A")] [("age", "30")]).lookup
        "name" = some "A" ∧
      (cypherMerge [("uuid", "e1"), ("name", "A")] [("age", "30")]).lookup
        "age" = some "30") ∧
    (cypherMerge [("uuid", "e1"), ("w", "1")] [("age", "30")]).lookup
      "w" = some "1" := by
  have h := update_properties_merge
    ⟨[[("uuid", "e1"), ("name", "A")]], [[("uuid", "e1"), ("w", "1")]]⟩
    "e1" [("age", "30")] (by decide)
  have hn := h.1 [("uuid", "e1"), ("name", "A")] (by decide) (by decide)
  have hr := h.2 [("uuid", "e1"), ("w", "1")] (by decide) (by decide)
  exact ⟨⟨hn.2.1 "name" (by decide), hn.2.2 "age" "30" (by decide)⟩,
    hr.2.1 "w" (by decide)⟩

theorem map_matched_noop (props : PropMap) (eid : String)
    (l : List PropMap) (hl : ∀ m ∈ l, m.lookup "uuid" ≠ some eid) :
    (l.map fun n =>
      if n.lookup "uuid" = some eid then cypherMerge n props else n)
      = l := by
  induction l with
  | nil => rfl
  | cons a l ih =>
    simp only [List.map_cons]
    rw [if_neg (hl a (List.mem_cons_self a l)),
      ih fun m hm => hl m (List.mem_cons_of_mem a hm)]

/-- C5: when no stored entity carries the given UUID, both update
operations complete (they are total functions of the store) and leave
the store state entirely unchanged — a not-found update is a silent
no-op indistinguishable from success, never surfaced as an error. -/
theorem update_missing_noop (st : Store) (eid : String) (props : PropMap)
    (hn : ∀ m ∈ st.nodes, m.lookup "uuid" ≠ some eid)
    (hr : ∀ m ∈ st.rels, m.lookup "uuid" ≠ some eid) :
    update_node_properties st eid props = st ∧
    update_relationship_properties st eid props = st := by
  constructor
  · unfold update_node_properties
    rw [map_matched_noop props eid st.nodes hn]
  · unfold update_relationship_properties
    rw [map_matched_noop props eid st.rels hr]

theorem update_missing_noop_witness :
    update_node_properties ⟨[[("uuid", "a")]], [[("uuid", "b")]]⟩ "zzz"
      [("x", "1")] = ⟨[[("uuid", "a")]], [[("uuid", "b")]]⟩ ∧
    update_relationship_properties ⟨[[("uuid", "a")]], [[("uuid", "b")]]⟩
      "zzz" [("x", "1")] = ⟨[[("uuid", "a")]], [[("uuid", "b")]]⟩ :=
  update_missing_noop ⟨[[("uuid", "a")]], [[("uuid", "b")]]⟩ "zzz"
    [("x", "1")] (by decide) (by decide)

/-- C9: neither `add_node` nor `add_relationship` mutates the
caller-supplied properties dict: each allocates a copy (treating `None`
as empty), writes the freshly generated UUID under `"uuid"` in the copy
only — overwriting any caller-supplied `"uuid"` value there — and the
caller's dict is unchanged on the heap afterwards. -/
theorem add_no_caller_mutation (h : DictHeap) (r : Nat)
    (hr : r < h.length) (u : String) :
    (heapGet (add_node_props h (some r) u).1 r = heapGet h r ∧
      (add_node_props h (some r) u).2 ≠ r ∧
      heapGet (add_node_props h (some r) u).1
          (add_node_props h (some r) u).2
        = dictSet (heapGet h r) "uuid" u ∧
      (heapGet (add_node_props h (some r) u).1
          (add_node_props h (some r) u).2).lookup "uuid" = some u) ∧
    (heapGet (add_node_props h none u).1 r = heapGet h r ∧
      heapGet (add_node_props h none u).1 (add_node_props h none u).2
        = [("uuid", u)]) ∧
    (heapGet (add_relationship_props h (some r) u).1 r = heapGet h r ∧
      (add_relationship_props h (some r) u).2 ≠ r ∧
      heapGet (add_relationship_props h (some r) u).1
          (add_relationship_props h (some r) u).2
        = dictSet (heapGet h r) "uuid" u ∧
      (heapGet (add_relationship_props h (some r) u).1
          (add_relationship_props h (some r) u).2).lookup "uuid"
        = some u) := by
  have hner : h.length ≠ r := Nat.ne_of_gt hr
  have keyN : heapGet (add_node_props h (some r) u).1
      (add_node_props h (some r) u).2 = dictSet (heapGet h r) "uuid" u := by
    show heapGet (heapSetKey (h ++ [heapGet h r]) h.length "uuid" u)
      h.length = _
    rw [heapGet_setKey_self _ _ _ _ (by simp), heapGet_append_self]
  have keyR : heapGet (add_relationship_props h (some r) u).1
      (add_relationship_props h (some r) u).2
      = dictSet (heapGet h r) "uuid" u := by
    show heapGet (heapSetKey (h ++ [heapGet h r]) h.length "uuid" u)
      h.length = _
    rw [heapGet_setKey_self _ _ _ _ (by simp), heapGet_append_self]
  refine ⟨⟨?_, hner, keyN, ?_⟩, ⟨?_, ?_⟩, ⟨?_, hner, keyR, ?_⟩⟩
  · show heapGet (heapSetKey (h ++ [heapGet h r]) h.length "uuid" u) r
      = heapGet h r
    rw [heapGet_setKey_ne _ _ _ _ _ hner, heapGet_append_lt _ _ _ hr]
  · rw [keyN, dictSet_lookup, if_pos rfl]
  · show heapGet (heapSetKey (h ++ [[]]) h.length "uuid" u) r
      = heapGet h r
    rw [heapGet_setKey_ne _ _ _ _ _ hner, heapGet_append_lt _ _ _ hr]
  · show heapGet (heapSetKey (h ++ [[]]) h.length "uuid" u) h.length
      = [("uuid", u)]
    rw [heapGet_setKey_self _ _ _ _ (by simp), heapGet_append_self]
    rfl
  · show heapGet (heapSetKey (h ++ [heapGet h r]) h.length "uuid" u) r
      = heapGet h r
    rw [heapGet_setKey_ne _ _ _ _ _ hner, heapGet_append_lt _ _ _ hr]
  · rw [keyR, dictSet_lookup, if_pos rfl]

theorem add_no_caller_mutation_witness :
    heapGet (add_node_props [[("uuid", "old"), ("x", "1")]] (some 0)
      "new").1 0 = [("uuid", "old"), ("x", "1")] ∧
    heapGet (add_node_props [[("uuid", "old"), ("x", "1")]] (some 0)
        "new").1
      (add_node_props [[("uuid", "old"), ("x", "1")]] (some 0) "new").2
      = [("uuid", "new"), ("x", "1")] ∧
    (heapGet (add_relationship_props [[("uuid", "old"), ("x", "1")]]
        (some 0) "new").1
      (add_relationship_props [[("uuid", "old"), ("x", "1")]] (some 0)
        "new").2).lookup "uuid" = some "new" := by
  have h := add_no_caller_mutation [[("uuid", "old"), ("x", "1")]] 0
    (by decide) "new"
  exact ⟨h.1.1.trans (by decide), h.1.2.2.1.trans (by decide),
    h.2.2.2.2.2⟩

/-- C10: one execution of `Worker.run` emits exactly one of the two
outcome signals — `result` carrying the task name and return value when
the wrapped call returns, `error` carrying the task name and the raised
exception when it raises — and emits `finished` exactly once in both
cases. -/
theorem worker_run_signals {E A : Type} (task : Option String)
    (fn : Except E A) :
    ((workerRun task fn).countP WorkerSignal.isFinished = 1) ∧
    ((workerRun task fn).countP WorkerSignal.isResult +
      (workerRun task fn).countP WorkerSignal.isError = 1) ∧
    (∀ v, fn = .ok v →
      workerRun task fn = [.result task v, .finished]) ∧
    (∀ e, fn = .error e →
      workerRun task fn = [.error task e, .finished]) := by
  cases fn with
  | ok v =>
    refine ⟨?_, ?_, ?_, ?_⟩
    · simp [workerRun, List.countP_cons, WorkerSignal.isFinished,
        WorkerSignal.isResult, WorkerSignal.isError]
    · simp [workerRun, List.countP_cons, WorkerSignal.isFinished,
        WorkerSignal.isResult, WorkerSignal.isError]
    · intro v' hv
      cases hv
      rfl
    · intro e he
      cases he
  | error e =>
    refine ⟨?_, ?_, ?_, ?_⟩
    · simp [workerRun, List.countP_cons, WorkerSignal.isFinished,
        WorkerSignal.isResult, WorkerSignal.isError]
    · simp [workerRun, List.countP_cons, WorkerSignal.isFinished,
        WorkerSignal.isResult, WorkerSignal.isError]
    · intro v' hv
      cases hv
    · intro e' he
      cases he
      rfl

theorem worker_run_signals_witness :
    workerRun (some "get_graph") (Except.ok (3 : Nat) : Except String Nat)
      = [.result (some "get_graph") 3, .finished] ∧
    workerRun (some "get_graph")
        (Except.error "boom" : Except String Nat)
      = [.error (some "get_graph") "boom", .finished] ∧
    (workerRun (some "get_graph")
        (Except.ok (3 : Nat) : Except String Nat)).countP
      WorkerSignal.isFinished = 1 :=
  ⟨(worker_run_signals (some "get_graph") (Except.ok 3)).2.2.1 3 rfl,
   (worker_run_signals (some "get_graph")
      (Except.error "boom")).2.2.2 "boom" rfl,
   (worker_run_signals (some "get_graph")
      (Except.ok (3 : Nat) : Except String Nat)).1⟩

end NeoPyQt
